import Mathlib

/-!
# Verification of the local-reverse-postalcode geocoder

Shallow embedding of `src/index.js` of the `local-reverse-postalcode`
repository, together with proofs about the claims of its specification.

The embedding models:

* the GeoNames line parser `_parseGeoNamesPostalCodesCsv` (the per-line loop
  over `POSTALCODE_COLUMNS` with the JS idiom `line[i] || null`);
* the haversine distance function `_distanceFunc`;
* the lookup layer `_lookUp` / `lookUp`, including the in-place
  `zipCode[0].distance = zipCode[1]` mutation of the records stored in the
  spatial index.  JS object references into the index are modelled as
  indices into a store list, so aliasing between the tree and the delivered
  result lists is preserved by the model;
* the k-nearest query `nearest` of the spatial index.  The k-d tree itself
  lives in the external `kdt` npm package, which is not part of this
  repository's sources, so `nearest` is modelled from the specification's
  contract for the spatial index query.

The lookup layer is parametric in the element data type `ρ`, the query point
type `π`, the distance value type `D` and the distance metric `d`, exactly as
the `kdt` tree takes the metric as a constructor argument; the geocoder
instantiates the metric with `_distanceFunc` (line 179 of the source).
-/

namespace RevGeo

/-! ## Record parser (`_parseGeoNamesPostalCodesCsv`, src/index.js lines 157-183) -/

/-- Model of the JavaScript `line.split('\x74')` (split on a single tab
character): splitting the empty string gives one empty field, a separator
ends the current field and starts a new one. -/
def splitTab : List Char → List String
  | [] => [""]
  | c :: rest =>
    match splitTab rest with
    | [] => [""]
    | f :: fs => if c = '\t' then "" :: f :: fs else ⟨c :: f.data⟩ :: fs

/-- The fixed ordered column schema `POSTALCODE_COLUMNS` of src/index.js
lines 47-60. -/
def POSTALCODE_COLUMNS : List String :=
  ["countryCode", "postalCode", "placeName",
   "adminName1", "adminCode1", "adminName2", "adminCode2",
   "adminName3", "adminCode3", "latitude", "longitude", "accuracy"]

/-- One parsed row: the object built by the loop
`lineObj[POSTALCODE_COLUMNS[i]] = line[i] || null` (src/index.js
lines 164-169).  Every field is an optional string; `none` models JS `null`. -/
structure PostalRow where
  countryCode : Option String
  postalCode : Option String
  placeName : Option String
  adminName1 : Option String
  adminCode1 : Option String
  adminName2 : Option String
  adminCode2 : Option String
  adminName3 : Option String
  adminCode3 : Option String
  latitude : Option String
  longitude : Option String
  accuracy : Option String
deriving DecidableEq

/-- Column access `line[i] || null`: a field that is absent (index beyond the
split array) or empty (the empty string is falsy in JS) becomes `null`. -/
def colAt (parts : List String) (i : Nat) : Option String :=
  match parts[i]? with
  | some s => if s = "" then none else some s
  | none => none

/-- The per-line body of `_parseGeoNamesPostalCodesCsv`: split the line on
tabs and map the twelve schema columns positionally. -/
def parseLine (line : String) : PostalRow :=
  let parts := splitTab line.data
  { countryCode := colAt parts 0
    postalCode := colAt parts 1
    placeName := colAt parts 2
    adminName1 := colAt parts 3
    adminCode1 := colAt parts 4
    adminName2 := colAt parts 5
    adminCode2 := colAt parts 6
    adminName3 := colAt parts 7
    adminCode3 := colAt parts 8
    latitude := colAt parts 9
    longitude := colAt parts 10
    accuracy := colAt parts 11 }

/-- `_parseGeoNamesPostalCodesCsv`: every line of the file is parsed and
pushed onto `data`, one record per line (src/index.js lines 160-171). -/
def _parseGeoNamesPostalCodesCsv (lines : List String) : List PostalRow :=
  lines.map parseLine

/-- The twelve schema columns of a parsed row, in the order of
`POSTALCODE_COLUMNS`. -/
def rowField (r : PostalRow) : Fin 12 → Option String
  | ⟨0, _⟩ => r.countryCode
  | ⟨1, _⟩ => r.postalCode
  | ⟨2, _⟩ => r.placeName
  | ⟨3, _⟩ => r.adminName1
  | ⟨4, _⟩ => r.adminCode1
  | ⟨5, _⟩ => r.adminName2
  | ⟨6, _⟩ => r.adminCode2
  | ⟨7, _⟩ => r.adminName3
  | ⟨8, _⟩ => r.adminCode3
  | ⟨9, _⟩ => r.latitude
  | ⟨10, _⟩ => r.longitude
  | ⟨11, _⟩ => r.accuracy
  | ⟨n + 12, h⟩ => absurd h (by omega)

/-! ## Haversine distance (`_distanceFunc`, src/index.js lines 70-89) -/

/-- Model of the JavaScript runtime function `Math.atan2`. -/
noncomputable def atan2 (y x : ℝ) : ℝ :=
  if 0 < x then Real.arctan (y / x)
  else if x < 0 then
    (if 0 ≤ y then Real.arctan (y / x) + Real.pi else Real.arctan (y / x) - Real.pi)
  else
    (if 0 < y then Real.pi / 2 else if y < 0 then -(Real.pi / 2) else 0)

/-- A latitude/longitude pair as read by `_distanceFunc` (the `x.latitude`,
`x.longitude` accesses of src/index.js lines 74-77). -/
structure GeoPt where
  latitude : ℝ
  longitude : ℝ

/-- Degrees to radians, the inner `toRadians` of `_distanceFunc`. -/
noncomputable def toRadians (num : ℝ) : ℝ := num * Real.pi / 180

/-- `_distanceFunc` of src/index.js lines 70-89: the haversine great-circle
distance in kilometers with spherical Earth radius 6371 km. -/
noncomputable def _distanceFunc (x y : GeoPt) : ℝ :=
  let lat1 := x.latitude
  let lon1 := x.longitude
  let lat2 := y.latitude
  let lon2 := y.longitude
  let R : ℝ := 6371
  let φ1 := toRadians lat1
  let φ2 := toRadians lat2
  let Δφ := toRadians (lat2 - lat1)
  let Δlam := toRadians (lon2 - lon1)
  let a := Real.sin (Δφ / 2) * Real.sin (Δφ / 2) +
    Real.cos φ1 * Real.cos φ2 * Real.sin (Δlam / 2) * Real.sin (Δlam / 2)
  let c := 2 * atan2 (Real.sqrt a) (Real.sqrt (1 - a))
  R * c

/-! ## The spatial index store and the lookup layer -/

/-- One record held by the spatial index: the parsed data part (never written
after construction) and the `distance` property, which is absent after
construction and assigned in place by `zipCode[0].distance = zipCode[1]`
during lookups (src/index.js line 256). -/
structure Entry (ρ D : Type) where
  data : ρ
  distance : Option D
deriving DecidableEq

variable {ρ π D : Type} [LinearOrder D]

/-- Assignment of the `distance` property on a record object. -/
def withDist (v : D) (r : Entry ρ D) : Entry ρ D :=
  { r with distance := some v }

/-- In-place update of the record at index `i` of the store, modelling a write
through a JS object reference into the tree. -/
def setDist : List (Entry ρ D) → Nat → D → List (Entry ρ D)
  | [], _, _ => []
  | r :: rest, 0, v => withDist v r :: rest
  | r :: rest, i + 1, v => r :: setDist rest i v

variable (d : π → ρ → D)

/-- The store entries paired with their indices (JS object references) and
their distance to the query point, in insertion order, starting at index `i`. -/
def indexPairs (q : π) : List (Entry ρ D) → Nat → List (Nat × D)
  | [], _ => []
  | r :: rest, i => (i, d q r.data) :: indexPairs q rest (i + 1)

/-- Comparison used to order candidates: strictly smaller distance first,
ties broken by insertion order (stable, deterministic). -/
def distLe (a b : Nat × D) : Prop :=
  a.2 < b.2 ∨ (a.2 = b.2 ∧ a.1 ≤ b.1)

instance : DecidableRel (distLe (D := D)) := fun a b =>
  if h1 : a.2 < b.2 then isTrue (Or.inl h1)
  else if h2 : a.2 = b.2 then
    if h3 : a.1 ≤ b.1 then isTrue (Or.inr ⟨h2, h3⟩)
    else isFalse (by
      intro h
      rcases h with h | ⟨_, h⟩
      · exact h1 h
      · exact h3 h)
  else isFalse (by
    intro h
    rcases h with h | ⟨h, _⟩
    · exact h1 h
    · exact h2 h)

instance : IsTrans (Nat × D) (distLe (D := D)) where
  trans a b c hab hbc := by
    rcases hab with hab | ⟨hab, hab2⟩ <;> rcases hbc with hbc | ⟨hbc, hbc2⟩
    · exact Or.inl (lt_trans hab hbc)
    · exact Or.inl (hbc ▸ hab)
    · exact Or.inl (hab ▸ hbc)
    · exact Or.inr ⟨hab.trans hbc, le_trans hab2 hbc2⟩

instance : IsTotal (Nat × D) (distLe (D := D)) where
  total a b := by
    rcases lt_trichotomy a.2 b.2 with h | h | h
    · exact Or.inl (Or.inl h)
    · rcases Nat.le_total a.1 b.1 with h2 | h2
      · exact Or.inl (Or.inr ⟨h, h2⟩)
      · exact Or.inr (Or.inr ⟨h.symm, h2⟩)
    · exact Or.inr (Or.inl h)

/-- Modelled from the spec: the K-nearest-neighbor query of the spatial
index.  The k-d tree implementation is the external `kdt` package, which is
not among this repository's sources; the specification's contract says the
query returns the `min(K, n)` records whose distance to the query point is
smallest, ordered ascending by distance, ties broken by insertion order.
Records are returned as `(reference, distance)` pairs, with references
modelled as store indices.  `sortedPairs` is the full candidate list in the
maintained order and `nearest` truncates it to `K` elements. -/
def sortedPairs (store : List (Entry ρ D)) (q : π) : List (Nat × D) :=
  List.insertionSort distLe (indexPairs d q store 0)

/-- The K-nearest query: the first `K` candidates in the stable ascending
order maintained by the index. -/
def nearest (store : List (Entry ρ D)) (q : π) (k : Nat) : List (Nat × D) :=
  (sortedPairs d store q).take k

/-- The result-processing loop of `_lookUp` (src/index.js lines 254-258):
`result.forEach(function(zipCode) { zipCode[0].distance = zipCode[1];
zipCodeList.push(zipCode[0]); })`.  Returns the store after the in-place
distance writes together with the pushed references. -/
def annotate : List (Entry ρ D) → List (Nat × D) → List (Entry ρ D) × List Nat
  | s, [] => (s, [])
  | s, p :: rest =>
    let next := annotate (setDist s p.1 p.2) rest
    (next.1, p.1 :: next.2)

/-- The per-point lookup function built in src/index.js lines 251-261: query
the tree, and unless the result list is empty (the guard
`result && result[0] && result[0][0]`; record objects are always truthy)
annotate each returned record with its distance and collect it. -/
def pointLookup (store : List (Entry ρ D)) (q : π) (k : Nat) :
    List (Entry ρ D) × List Nat :=
  let result := nearest d store q k
  if result.isEmpty then (store, [])
  else annotate store result

/-- The sequential `async.series` execution of the per-point functions
(src/index.js lines 249-264), threading the mutated store from one point to
the next and collecting one reference list per point. -/
def runPoints : List (Entry ρ D) → List π → Nat → List (Entry ρ D) × List (List Nat)
  | store, [], _ => (store, [])
  | store, q :: ps, k =>
    let first := pointLookup d store q k
    let rest := runPoints first.1 ps k
    (rest.1, first.2 :: rest.2)

/-- `_lookUp` of src/index.js lines 239-269.  The state is the optional tree
store (`_kdTree`, `none` before `init` has built the index).  If the tree is
still null the callback receives the distinguished error string and the index
is not touched; otherwise the per-point lookups run in series and the final
callback receives `(null, results)`.  The error-or-results value delivered to
the callback is an `Except`. -/
def _lookUp (st : Option (List (Entry ρ D))) (points : List π) (maxResults : Nat) :
    Option (List (Entry ρ D)) × Except String (List (List Nat)) :=
  match st with
  | none => (none, Except.error "You must first call init before calling lookup")
  | some store =>
    let run := runPoints d store points maxResults
    (some run.1, Except.ok run.2)

/-- The public `lookUp` wrapper of src/index.js lines 219-237: it forwards
`(err, results[0])` to the caller's callback when the results array is
non-empty, and just `(err)` (no result value, modelled as `none`) otherwise. -/
def lookUp (st : Option (List (Entry ρ D))) (points : List π) (maxResults : Nat) :
    Option (List (Entry ρ D)) × (Option String × Option (List Nat)) :=
  match _lookUp d st points maxResults with
  | (st2, Except.error e) => (st2, (some e, none))
  | (st2, Except.ok results) =>
    match results with
    | [] => (st2, (none, none))
    | r0 :: _ => (st2, (none, some r0))

/-- The distance annotations observed on a delivered reference list, read
through the final store (JS delivers object references, so the caller sees
the property values as they stand when the outer callback fires). -/
def resultDistances (s : List (Entry ρ D)) (idxs : List Nat) : List D :=
  idxs.filterMap (fun i => (s[i]?).bind Entry.distance)

/-! ## Concrete instantiation used for evaluations

Records and query points are integer latitude/longitude pairs and the metric
is the taxicab distance with natural-number values; the lookup layer is
parametric in the metric exactly as the `kdt` tree is, so these evaluations
exercise the plumbing of `_lookUp`/`lookUp` independently of the haversine
formula. -/

/-- A computable stand-in metric on integer coordinate pairs. -/
def qNat (q r : ℤ × ℤ) : ℕ := (q.1 - r.1).natAbs + (q.2 - r.2).natAbs

/-- A record at the origin. -/
def e0 : Entry (ℤ × ℤ) ℕ := ⟨(0, 0), none⟩

/-- A record at (10, 10). -/
def e1 : Entry (ℤ × ℤ) ℕ := ⟨(10, 10), none⟩

/-- A two-record store. -/
def cStore : List (Entry (ℤ × ℤ) ℕ) := [e0, e1]

/-- A one-record store. -/
def cStore1 : List (Entry (ℤ × ℤ) ℕ) := [e0]

/-- A one-record geo store at the origin, for the haversine instantiation. -/
def gStore : List (Entry GeoPt ℝ) := [⟨⟨0, 0⟩, none⟩]

/-- The query point (10, 10) for the haversine instantiation. -/
def gQ : GeoPt := ⟨10, 10⟩

/-! ## Lemmas about the store primitives -/

variable {ρ2 π2 E : Type} [LinearOrder E] (m : π2 → ρ2 → E)

theorem setDist_length (s : List (Entry ρ2 E)) (i : Nat) (v : E) :
    (setDist s i v).length = s.length := by
  induction s generalizing i with
  | nil => rfl
  | cons r rest ih =>
    cases i with
    | zero => simp [setDist]
    | succ n => simp [setDist, ih]

theorem setDist_getElem_self (s : List (Entry ρ2 E)) (i : Nat) (v : E) :
    (setDist s i v)[i]? = (s[i]?).map (withDist v) := by
  induction s generalizing i with
  | nil => simp [setDist]
  | cons r rest ih =>
    cases i with
    | zero => simp [setDist, withDist]
    | succ n => simpa [setDist] using ih n

theorem setDist_getElem_ne (s : List (Entry ρ2 E)) (i j : Nat) (v : E) (h : j ≠ i) :
    (setDist s i v)[j]? = s[j]? := by
  induction s generalizing i j with
  | nil => simp [setDist]
  | cons r rest ih =>
    cases i with
    | zero =>
      cases j with
      | zero => exact absurd rfl h
      | succ n => simp [setDist]
    | succ n =>
      cases j with
      | zero => simp [setDist]
      | succ l => simpa [setDist] using ih n l (fun hh => h (by omega))

theorem setDist_map_data (s : List (Entry ρ2 E)) (i : Nat) (v : E) :
    (setDist s i v).map Entry.data = s.map Entry.data := by
  induction s generalizing i with
  | nil => rfl
  | cons r rest ih =>
    cases i with
    | zero => simp [setDist, withDist]
    | succ n => simp [setDist, ih]

theorem annotate_snd (s : List (Entry ρ2 E)) (res : List (Nat × E)) :
    (annotate s res).2 = res.map Prod.fst := by
  induction res generalizing s with
  | nil => rfl
  | cons p rest ih => simp [annotate, ih]

theorem annotate_map_data (s : List (Entry ρ2 E)) (res : List (Nat × E)) :
    (annotate s res).1.map Entry.data = s.map Entry.data := by
  induction res generalizing s with
  | nil => rfl
  | cons p rest ih => simp [annotate, ih, setDist_map_data]

theorem annotate_getElem_not_mem (s : List (Entry ρ2 E)) (res : List (Nat × E))
    (i : Nat) (h : i ∉ res.map Prod.fst) :
    (annotate s res).1[i]? = s[i]? := by
  induction res generalizing s with
  | nil => rfl
  | cons p rest ih =>
    simp only [List.map_cons, List.mem_cons, not_or] at h
    show (annotate (setDist s p.1 p.2) rest).1[i]? = s[i]?
    rw [ih _ h.2, setDist_getElem_ne _ _ _ _ h.1]

theorem annotate_getElem_mem (s : List (Entry ρ2 E)) (res : List (Nat × E))
    (p : Nat × E) (hnd : (res.map Prod.fst).Nodup) (hp : p ∈ res) :
    (annotate s res).1[p.1]? = (s[p.1]?).map (withDist p.2) := by
  induction res generalizing s with
  | nil => cases hp
  | cons p0 rest ih =>
    simp only [List.map_cons, List.nodup_cons] at hnd
    rcases List.mem_cons.mp hp with h | h
    · subst h
      show (annotate (setDist s p.1 p.2) rest).1[p.1]? = _
      rw [annotate_getElem_not_mem _ _ _ hnd.1, setDist_getElem_self]
    · have hne : p.1 ≠ p0.1 := by
        intro he
        exact hnd.1 (he ▸ List.mem_map_of_mem Prod.fst h)
      show (annotate (setDist s p0.1 p0.2) rest).1[p.1]? = _
      rw [ih _ hnd.2 h, setDist_getElem_ne _ _ _ _ hne]

/-! ## Lemmas about the candidate list and the K-nearest query -/

theorem indexPairs_length (q : π2) (s : List (Entry ρ2 E)) (i : Nat) :
    (indexPairs m q s i).length = s.length := by
  induction s generalizing i with
  | nil => rfl
  | cons r rest ih => simp [indexPairs, ih]

theorem indexPairs_map_fst (q : π2) (s : List (Entry ρ2 E)) (i : Nat) :
    (indexPairs m q s i).map Prod.fst = List.range' i s.length := by
  induction s generalizing i with
  | nil => rfl
  | cons r rest ih => simp [indexPairs, ih, List.range'_succ]

theorem indexPairs_mem (q : π2) (s : List (Entry ρ2 E)) (i : Nat) (p : Nat × E) :
    p ∈ indexPairs m q s i ↔
      i ≤ p.1 ∧ ∃ r, s[p.1 - i]? = some r ∧ p.2 = m q r.data := by
  induction s generalizing i with
  | nil => simp [indexPairs]
  | cons r0 rest ih =>
    simp only [indexPairs, List.mem_cons, ih]
    constructor
    · rintro (rfl | ⟨hle, r, hr, hp2⟩)
      · exact ⟨le_refl _, r0, by simp, rfl⟩
      · refine ⟨by omega, r, ?_, hp2⟩
        have hs : p.1 - i = (p.1 - (i + 1)) + 1 := by omega
        rw [hs, List.getElem?_cons_succ]
        exact hr
    · rintro ⟨hle, r, hr, hp2⟩
      rcases Nat.eq_or_lt_of_le hle with heq | hlt
      · left
        have h0 : p.1 - i = 0 := by omega
        rw [h0, List.getElem?_cons_zero] at hr
        have hr0 : r = r0 := (Option.some.injEq _ _ ▸ hr.symm)
        subst hr0
        exact Prod.ext_iff.mpr ⟨heq.symm, hp2⟩
      · right
        refine ⟨by omega, r, ?_, hp2⟩
        have hs : p.1 - i = (p.1 - (i + 1)) + 1 := by omega
        rw [hs, List.getElem?_cons_succ] at hr
        exact hr

theorem indexPairs_congr (q : π2) (s1 s2 : List (Entry ρ2 E)) (i : Nat)
    (h : s1.map Entry.data = s2.map Entry.data) :
    indexPairs m q s1 i = indexPairs m q s2 i := by
  induction s1 generalizing s2 i with
  | nil =>
    cases s2 with
    | nil => rfl
    | cons r2 rest2 => simp at h
  | cons r rest ih =>
    cases s2 with
    | nil => simp at h
    | cons r2 rest2 =>
      simp only [List.map_cons, List.cons.injEq] at h
      simp [indexPairs, h.1, ih rest2 (i + 1) h.2]

theorem sortedPairs_sorted (store : List (Entry ρ2 E)) (q : π2) :
    List.Sorted distLe (sortedPairs m store q) :=
  List.sorted_insertionSort distLe _

theorem sortedPairs_perm (store : List (Entry ρ2 E)) (q : π2) :
    List.Perm (sortedPairs m store q) (indexPairs m q store 0) :=
  List.perm_insertionSort distLe _

theorem sortedPairs_length (store : List (Entry ρ2 E)) (q : π2) :
    (sortedPairs m store q).length = store.length := by
  rw [(sortedPairs_perm m store q).length_eq, indexPairs_length]

theorem sortedPairs_nodup_fst (store : List (Entry ρ2 E)) (q : π2) :
    ((sortedPairs m store q).map Prod.fst).Nodup := by
  have hperm := (sortedPairs_perm m store q).map Prod.fst
  refine hperm.nodup_iff.mpr ?_
  rw [indexPairs_map_fst]
  exact List.nodup_range' _ _

theorem sortedPairs_mem (store : List (Entry ρ2 E)) (q : π2) (p : Nat × E) :
    p ∈ sortedPairs m store q ↔ ∃ r, store[p.1]? = some r ∧ p.2 = m q r.data := by
  rw [(sortedPairs_perm m store q).mem_iff, indexPairs_mem]
  simp

theorem nearest_length (store : List (Entry ρ2 E)) (q : π2) (k : Nat) :
    (nearest m store q k).length = min k store.length := by
  rw [nearest, List.length_take, sortedPairs_length]

theorem nearest_sorted (store : List (Entry ρ2 E)) (q : π2) (k : Nat) :
    List.Sorted distLe (nearest m store q k) :=
  (sortedPairs_sorted m store q).sublist (List.take_sublist k _)

theorem nearest_nodup_fst (store : List (Entry ρ2 E)) (q : π2) (k : Nat) :
    ((nearest m store q k).map Prod.fst).Nodup :=
  ((sortedPairs_nodup_fst m store q).sublist ((List.take_sublist k _).map Prod.fst))

theorem nearest_mem (store : List (Entry ρ2 E)) (q : π2) (k : Nat) (p : Nat × E)
    (hp : p ∈ nearest m store q k) :
    ∃ r, store[p.1]? = some r ∧ p.2 = m q r.data :=
  (sortedPairs_mem m store q p).mp (List.mem_of_mem_take hp)

theorem nearest_min (store : List (Entry ρ2 E)) (q : π2) (k : Nat) (p : Nat × E)
    (hp : p ∈ nearest m store q k) (j : Nat) (rj : Entry ρ2 E)
    (hj : store[j]? = some rj) (hnot : j ∉ (nearest m store q k).map Prod.fst) :
    distLe p (j, m q rj.data) := by
  have hmem : (j, m q rj.data) ∈ sortedPairs m store q :=
    (sortedPairs_mem m store q _).mpr ⟨rj, hj, rfl⟩
  have hsplit : nearest m store q k ++ (sortedPairs m store q).drop k =
      sortedPairs m store q := List.take_append_drop k _
  have hpairwise : List.Pairwise distLe
      (nearest m store q k ++ (sortedPairs m store q).drop k) := by
    rw [hsplit]
    exact sortedPairs_sorted m store q
  have hcross := (List.pairwise_append.mp hpairwise).2.2
  have hjdrop : (j, m q rj.data) ∈ (sortedPairs m store q).drop k := by
    rcases List.mem_append.mp (hsplit ▸ hmem) with h | h
    · exact absurd (List.mem_map_of_mem Prod.fst h) hnot
    · exact h
  exact hcross p hp _ hjdrop

theorem nearest_fst_all (store : List (Entry ρ2 E)) (q : π2) (k : Nat)
    (h : store.length ≤ k) (j : Nat) (hj : j < store.length) :
    j ∈ (nearest m store q k).map Prod.fst := by
  have hlen : (sortedPairs m store q).length ≤ k := by
    rw [sortedPairs_length]
    exact h
  have htake : nearest m store q k = sortedPairs m store q :=
    List.take_of_length_le hlen
  rw [htake]
  have hr := List.getElem?_eq_getElem hj
  exact List.mem_map_of_mem Prod.fst
    ((sortedPairs_mem m store q (j, m q (store[j].data))).mpr ⟨store[j], hr, rfl⟩)

theorem nearest_congr (s1 s2 : List (Entry ρ2 E)) (q : π2) (k : Nat)
    (h : s1.map Entry.data = s2.map Entry.data) :
    nearest m s1 q k = nearest m s2 q k := by
  rw [nearest, nearest, sortedPairs, sortedPairs, indexPairs_congr m q s1 s2 0 h]

/-! ## Lemmas about the per-point lookup and the batch runner -/

theorem pointLookup_eq (store : List (Entry ρ2 E)) (q : π2) (k : Nat) :
    pointLookup m store q k = annotate store (nearest m store q k) := by
  rcases hn : nearest m store q k with _ | ⟨p, rest⟩
  · simp [pointLookup, hn, annotate]
  · simp [pointLookup, hn]

theorem pointLookup_snd (store : List (Entry ρ2 E)) (q : π2) (k : Nat) :
    (pointLookup m store q k).2 = (nearest m store q k).map Prod.fst := by
  rw [pointLookup_eq, annotate_snd]

theorem pointLookup_map_data (store : List (Entry ρ2 E)) (q : π2) (k : Nat) :
    (pointLookup m store q k).1.map Entry.data = store.map Entry.data := by
  rw [pointLookup_eq, annotate_map_data]

theorem pointLookup_getElem_mem (store : List (Entry ρ2 E)) (q : π2) (k : Nat)
    (p : Nat × E) (hp : p ∈ nearest m store q k) :
    (pointLookup m store q k).1[p.1]? = (store[p.1]?).map (withDist p.2) := by
  rw [pointLookup_eq]
  exact annotate_getElem_mem _ _ _ (nearest_nodup_fst m store q k) hp

theorem runPoints_map_data (store : List (Entry ρ2 E)) (pts : List π2) (k : Nat) :
    (runPoints m store pts k).1.map Entry.data = store.map Entry.data := by
  induction pts generalizing store with
  | nil => rfl
  | cons q ps ih => simp [runPoints, ih, pointLookup_map_data]

theorem runPoints_snd (store : List (Entry ρ2 E)) (pts : List π2) (k : Nat) :
    (runPoints m store pts k).2 = pts.map (fun q => (pointLookup m store q k).2) := by
  induction pts generalizing store with
  | nil => rfl
  | cons q ps ih =>
    simp only [runPoints, List.map_cons, List.cons.injEq, true_and]
    rw [ih]
    refine List.map_congr_left fun q2 _ => ?_
    rw [pointLookup_snd, pointLookup_snd,
      nearest_congr m _ _ q2 k (pointLookup_map_data m store q k)]

theorem runPoints_length_snd (store : List (Entry ρ2 E)) (pts : List π2) (k : Nat) :
    (runPoints m store pts k).2.length = pts.length := by
  rw [runPoints_snd, List.length_map]

theorem filterMap_fst_eq_map_snd (l : List (Nat × E)) (g : Nat → Option E)
    (h : ∀ p ∈ l, g p.1 = some p.2) :
    (l.map Prod.fst).filterMap g = l.map Prod.snd := by
  induction l with
  | nil => rfl
  | cons p rest ih =>
    rw [List.map_cons, List.map_cons,
      List.filterMap_cons_some (h p (List.mem_cons_self p rest))]
    exact congrArg _ (ih fun p2 hp2 => h p2 (List.mem_cons_of_mem _ hp2))

theorem colAt_of_le (parts : List String) (i : Nat) (h : parts.length ≤ i) :
    colAt parts i = none := by
  unfold colAt
  rw [List.getElem?_eq_none h]

theorem colAt_ne_empty (parts : List String) (i : Nat) : colAt parts i ≠ some "" := by
  cases hp : parts[i]? with
  | none => simp [colAt, hp]
  | some s =>
    by_cases hs : s = ""
    · simp [colAt, hp, hs]
    · simp [colAt, hp, hs]

/-! ## The claims -/

/-- C1: the spec claims a batch `lookUp` over `n` points delivers a sequence
of `n` per-point result sequences, but the wrapper at src/index.js line 231
forwards only `results[0]` to the caller's callback.  Evaluated at a
two-point batch over a two-record index with `maxResults = 1`: the inner
`_lookUp` computes one result list per point (`[[0], [1]]`, the nearest
record of each point), yet the caller's callback receives only the first
point's list `[0]`. -/
theorem C1_batch_truncated_eval :
    (_lookUp qNat (some cStore) [((0 : ℤ), (0 : ℤ)), ((10 : ℤ), (10 : ℤ))] 1).2 =
      Except.ok [[0], [1]] ∧
    (lookUp qNat (some cStore) [((0 : ℤ), (0 : ℤ)), ((10 : ℤ), (10 : ℤ))] 1).2 =
      (none, some [0]) :=
  ⟨rfl, rfl⟩

/-- C2: calling `lookUp` before the index has been built (`_kdTree` still
null) fails fast with the distinguished not-initialized error string, the
callback receives no data, and the index state is untouched. -/
theorem C2_not_initialized_fails_fast (points : List π2) (k : Nat) :
    lookUp m (none : Option (List (Entry ρ2 E))) points k =
      (none, (some "You must first call init before calling lookup", none)) :=
  rfl

/-- C3: for every built index, query point and K, the single-point lookup
delivers a result list whose annotated distances, read back through the
final store, are all present and non-decreasing from first to last. -/
theorem C3_distances_ascending (store : List (Entry ρ2 E)) (q : π2) (k : Nat) :
    ∃ s2 idxs, _lookUp m (some store) [q] k = (some s2, Except.ok [idxs]) ∧
      (resultDistances s2 idxs).length = idxs.length ∧
      List.Sorted (· ≤ ·) (resultDistances s2 idxs) := by
  refine ⟨(pointLookup m store q k).1, (pointLookup m store q k).2, rfl, ?_, ?_⟩
  all_goals
    have hRD : resultDistances (pointLookup m store q k).1 (pointLookup m store q k).2 =
        (nearest m store q k).map Prod.snd := by
      rw [resultDistances, pointLookup_snd]
      refine filterMap_fst_eq_map_snd _ _ fun p hp => ?_
      obtain ⟨r, hr, hsnd⟩ := nearest_mem m store q k p hp
      rw [pointLookup_getElem_mem m store q k p hp, hr]
      rfl
  · rw [hRD, List.length_map, pointLookup_snd, List.length_map]
  · rw [hRD]
    refine List.Pairwise.map Prod.snd (fun a b hab => ?_) (nearest_sorted m store q k)
    rcases hab with h | ⟨h, _⟩
    · exact le_of_lt h
    · exact le_of_eq h

/-- C4: for an index of `n ≥ 1` records and positive K, the per-point result
list has length exactly `min K n`, and when K is at least `n` every record of
the index is among the results. -/
theorem C4_result_length (store : List (Entry ρ2 E)) (q : π2) (k : Nat)
    (_h1 : 1 ≤ store.length) (_h2 : 1 ≤ k) :
    ((pointLookup m store q k).2).length = min k store.length ∧
    (store.length ≤ k → ∀ j, j < store.length → j ∈ (pointLookup m store q k).2) := by
  constructor
  · rw [pointLookup_snd, List.length_map, nearest_length]
  · intro hk j hj
    rw [pointLookup_snd]
    exact nearest_fst_all m store q k hk j hj

/-- C4 witness: a two-record index queried with K = 5 yields both records. -/
theorem C4_result_length_witness :
    1 ≤ cStore.length ∧ 1 ≤ 5 ∧
    ((pointLookup qNat cStore ((0 : ℤ), (0 : ℤ)) 5).2).length = min 5 cStore.length ∧
    (cStore.length ≤ 5 → ∀ j, j < cStore.length →
      j ∈ (pointLookup qNat cStore ((0 : ℤ), (0 : ℤ)) 5).2) :=
  ⟨by decide, by decide,
    (C4_result_length qNat cStore ((0 : ℤ), (0 : ℤ)) 5 (by decide) (by decide)).1,
    (C4_result_length qNat cStore ((0 : ℤ), (0 : ℤ)) 5 (by decide) (by decide)).2⟩

/-- C5: with the metric instantiated to `_distanceFunc` (the haversine
great-circle distance in kilometers with Earth radius 6371 km, exactly as the
geocoder passes it to the tree), every record selected by a point's lookup is
annotated in the store with `_distanceFunc` of the query point and that
record's coordinates, and the same metric governs selection: every selected
record is at most as far as every unselected record, ties broken by insertion
order. -/
theorem C5_haversine_distance (store : List (Entry GeoPt ℝ)) (q : GeoPt) (k i : Nat)
    (hi : i ∈ (pointLookup _distanceFunc store q k).2) :
    ((pointLookup _distanceFunc store q k).1[i]?).bind Entry.distance =
      (store[i]?).map (fun r => _distanceFunc q r.data) ∧
    ∀ j, j ∉ (pointLookup _distanceFunc store q k).2 →
      ∀ ri rj, store[i]? = some ri → store[j]? = some rj →
        (_distanceFunc q ri.data < _distanceFunc q rj.data ∨
          (_distanceFunc q ri.data = _distanceFunc q rj.data ∧ i ≤ j)) := by
  rw [pointLookup_snd] at hi
  obtain ⟨p, hp, hfst⟩ := List.mem_map.mp hi
  subst hfst
  obtain ⟨r, hr, hsnd⟩ := nearest_mem _distanceFunc store q k p hp
  constructor
  · rw [pointLookup_getElem_mem _distanceFunc store q k p hp, hr, hsnd]
    rfl
  · intro j hj ri rj hri hrj
    rw [pointLookup_snd] at hj
    have hmin := nearest_min _distanceFunc store q k p hp j rj hrj hj
    have hrir : ri = r := by
      rw [hri] at hr
      exact Option.some.inj hr
    subst hrir
    rcases hmin with h | ⟨h, hle⟩
    · rw [hsnd] at h
      exact Or.inl h
    · rw [hsnd] at h
      exact Or.inr ⟨h, hle⟩

/-- C5 witness: a one-record index at the origin queried from (10, 10). -/
theorem C5_haversine_distance_witness :
    ((pointLookup _distanceFunc gStore gQ 1).1[0]?).bind Entry.distance =
      (gStore[0]?).map (fun r => _distanceFunc gQ r.data) :=
  (C5_haversine_distance gStore gQ 1 0 (by
    have h : (pointLookup _distanceFunc gStore gQ 1).2 = [0] := rfl
    rw [h]
    exact List.mem_singleton_self 0)).1

/-- C6 counterexample: one `lookUp` call against a one-record index changes
the stored record (its `distance` property is written in place), so the index
is not left unchanged from its state at the end of construction. -/
theorem C6_counterexample_mutation :
    (lookUp qNat (some cStore1) [((3 : ℤ), (4 : ℤ))] 1).1 ≠ some cStore1 := by
  decide

/-- C6 amended: lookups never change the number of records in the index nor
any record's parsed data; only the `distance` annotations on stored records
may change. -/
theorem C6_amended_data_preserved (store : List (Entry ρ2 E)) (points : List π2)
    (k : Nat) :
    ∃ s2 results, _lookUp m (some store) points k = (some s2, Except.ok results) ∧
      s2.map Entry.data = store.map Entry.data ∧ s2.length = store.length := by
  refine ⟨(runPoints m store points k).1, (runPoints m store points k).2, rfl,
    runPoints_map_data m store points k, ?_⟩
  have h := congrArg List.length (runPoints_map_data m store points k)
  simpa using h

/-- C7 counterexample: a batch containing the out-of-range query point
(999, 0) (latitude far outside [-90, 90]) produces no error of any kind: the
callback receives `null` for the error and a normal result list for every
point, rather than an InvalidQueryPoint error for the invalid point. -/
theorem C7_counterexample_no_invalid_error :
    (_lookUp qNat (some cStore) [((999 : ℤ), (0 : ℤ)), ((10 : ℤ), (10 : ℤ))] 1).2 =
      Except.ok [[0], [1]] :=
  rfl

/-- C7 amended: the lookup path performs no query-point validation at all.
Once initialized it never signals an error: every point, valid or not, gets a
result list computed like any other point's, and each point's selection is
exactly what a lookup of that point alone against the freshly built index
would select. -/
theorem C7_amended_no_validation (store : List (Entry ρ2 E)) (points : List π2)
    (k : Nat) :
    ∃ s2, _lookUp m (some store) points k =
      (some s2, Except.ok (points.map fun q => (pointLookup m store q k).2)) := by
  refine ⟨(runPoints m store points k).1, ?_⟩
  have h := runPoints_snd m store points k
  simp only [_lookUp]
  rw [h]

/-- C8: an index built from zero records is a valid initialized index; every
lookup against it returns an empty result list for every point with no error,
and the single-point wrapper delivers an empty list with a null error. -/
theorem C8_empty_index_empty_results (points : List π2) (q : π2) (k : Nat) :
    _lookUp m (some ([] : List (Entry ρ2 E))) points k =
      (some [], Except.ok (points.map fun _ => ([] : List Nat))) ∧
    (lookUp m (some ([] : List (Entry ρ2 E))) [q] k).2 = (none, some []) := by
  have hmain : ∀ pts : List π2, _lookUp m (some ([] : List (Entry ρ2 E))) pts k =
      (some [], Except.ok (pts.map fun _ => ([] : List Nat))) := by
    intro pts
    have h1 : (runPoints m ([] : List (Entry ρ2 E)) pts k).1 = [] := by
      have h := runPoints_map_data m ([] : List (Entry ρ2 E)) pts k
      simpa using h
    have h2 : (runPoints m ([] : List (Entry ρ2 E)) pts k).2 =
        pts.map fun _ => ([] : List Nat) := by
      rw [runPoints_snd]
      refine List.map_congr_left fun q2 _ => ?_
      rw [pointLookup_snd]
      simp [nearest, sortedPairs, indexPairs]
    simp only [_lookUp]
    rw [h1, h2]
  refine ⟨hmain points, ?_⟩
  have h2 := hmain [q]
  simp [lookUp, h2]

/-- C9: every tab-delimited line parses to a full twelve-column record in one
pass over the column schema; a column missing from a short line becomes the
explicit no-value marker `none` (never the empty string), and parsing is a
total per-line map, so a short or malformed line never aborts ingestion of
the remaining lines. -/
theorem C9_parser_missing_fields (lines : List String) (line : String) (i : Fin 12) :
    (_parseGeoNamesPostalCodesCsv lines).length = lines.length ∧
    ((splitTab line.data).length ≤ i.val → rowField (parseLine line) i = none) ∧
    rowField (parseLine line) i ≠ some "" := by
  refine ⟨by rw [_parseGeoNamesPostalCodesCsv, List.length_map], ?_, ?_⟩
  · intro h
    fin_cases i <;> exact colAt_of_le _ _ h
  · fin_cases i <;> exact colAt_ne_empty _ _

/-- C9 witness: the short line with only a country code and a postal code. -/
theorem C9_parser_missing_fields_witness :
    (_parseGeoNamesPostalCodesCsv ["US\t99501"]).length = 1 ∧
    rowField (parseLine "US\t99501") 5 = none ∧
    rowField (parseLine "US\t99501") 5 ≠ some "" := by
  have h := C9_parser_missing_fields ["US\t99501"] "US\t99501" 5
  exact ⟨h.1, h.2.1 (by decide), h.2.2⟩

/-- C10: calling `lookUp` with an empty array of points on an initialized
index invokes the callback with a null error and no result value at all
(`results` is the empty array, so the wrapper's `results.length > 0` guard
fails and the callback gets no second argument), not with an empty list. -/
theorem C10_empty_batch_delivers_nothing (store : List (Entry ρ2 E)) (k : Nat) :
    (lookUp m (some store) ([] : List π2) k).2 = (none, none) :=
  rfl

end RevGeo
